import Mathlib

/-!
Shallow embedding of the transaction-request builder core found in
src/src/wallet/tx_builder.rs: the data model (transactions, UTXOs, the
builder aggregate), the change-spend filter ChangeSpendPolicy.filter_utxos,
and the ordering strategy TxOrdering.sort_tx with its three modes
(Untouched, Shuffle, BIP69Lexicographic).

Modelling conventions:
* Machine integers (u32, u64, usize) are modelled as Nat; the code performs
  no arithmetic on them, only comparisons, so no overflow is observable.
* A transaction id is the 32 hash bytes in their canonical stored order,
  modelled as a list of byte values; Rust compares a [u8; 32] (and hence a
  Txid) lexicographically element by element, which on equal-length lists
  coincides with the lexicographic order on lists used here.
* A script is its byte slice; Rust compares slices lexicographically with a
  strict prefix ordering before any extension, which is exactly the
  lexicographic list order used here.
* The random generator consumed by the Shuffle arm (rand::thread_rng or a
  seeded StdRng) is modelled as an injected function from the loop index to
  a raw draw; gen_range(0, i + 1) is modelled by reducing the draw mod
  (i + 1), so every sequence of in-range draws is represented.
* rand's SliceRandom::shuffle is the Fisher-Yates loop
  "for i in (1..len).rev() { swap(i, gen_range(0, i + 1)) }", embedded
  verbatim as shuffleGo below.
* Rust's sort_unstable_by_key guarantees exactly that its result is sorted
  by the key and is a permutation of the input (tie order among equal keys
  is unspecified); it is embedded as List.insertionSort with the key-based
  relation, a concrete deterministic sort realising that contract.
* FeeRate, Address, SigHashType and the policy-path map are opaque
  pass-through values for every claim here; they are given simple concrete
  carriers with decidable equality.
-/

namespace TxBuilderSpec

/-- Byte string: a list of byte values. -/
abbrev Bytes := List Nat

/-- Transaction id: the 32 hash bytes in canonical stored order. -/
abbrev Txid := Bytes

/-- Script bytes. -/
abbrev Script := Bytes

/-- A reference to a previous transaction output: (txid, output index). -/
structure OutPoint where
  txid : Txid
  vout : Nat
  deriving DecidableEq

/-- A transaction input (bitcoin::TxIn): previous outpoint plus the fields
the BIP69 sort key does not inspect. -/
structure TxIn where
  previous_output : OutPoint
  script_sig : Script
  sequence : Nat
  witness : List Bytes
  deriving DecidableEq

/-- A transaction output (bitcoin::TxOut): amount and script bytes. -/
structure TxOut where
  value : Nat
  script_pubkey : Script
  deriving DecidableEq

/-- A transaction (bitcoin::Transaction) with ordered input and output
collections. -/
structure Transaction where
  version : Int
  lock_time : Nat
  input : List TxIn
  output : List TxOut
  deriving DecidableEq

/-- A wallet UTXO (crate::types::UTXO): outpoint, the previous output
record, and the internal-keychain (change) marker. -/
structure UTXO where
  outpoint : OutPoint
  txout : TxOut
  is_internal : Bool
  deriving DecidableEq

/-- ChangeSpendPolicy from tx_builder.rs. -/
inductive ChangeSpendPolicy where
  | ChangeAllowed
  | OnlyChange
  | ChangeForbidden
  deriving DecidableEq

/-- Default for ChangeSpendPolicy (impl Default, line 235). -/
def ChangeSpendPolicy.default : ChangeSpendPolicy := ChangeSpendPolicy.ChangeAllowed

/-- ChangeSpendPolicy::filter_utxos (lines 242-248): the iterator argument
and collected Vec are modelled as lists. -/
def ChangeSpendPolicy.filter_utxos (p : ChangeSpendPolicy) (l : List UTXO) : List UTXO :=
  match p with
  | ChangeSpendPolicy.ChangeAllowed => l
  | ChangeSpendPolicy.OnlyChange => l.filter (fun u => u.is_internal)
  | ChangeSpendPolicy.ChangeForbidden => l.filter (fun u => !u.is_internal)

/-- TxOrdering from tx_builder.rs. -/
inductive TxOrdering where
  | Shuffle
  | Untouched
  | BIP69Lexicographic
  deriving DecidableEq

/-- Default for TxOrdering (impl Default, line 185). -/
def TxOrdering.default : TxOrdering := TxOrdering.Shuffle

/-- Version wrapper over the u32 transaction version (line 220). -/
structure Version where
  val : Nat
  deriving DecidableEq

/-- Default for Version (impl Default, line 222). -/
def Version.default : Version := Version.mk 1

/-- The BIP69 input sort key order: the Rust tuple ordering on
(previous_output.txid, previous_output.vout) from line 208, i.e. strictly
smaller txid bytes, or equal txid and no larger vout. -/
def txinLE (a b : TxIn) : Prop :=
  a.previous_output.txid < b.previous_output.txid ∨
    (a.previous_output.txid = b.previous_output.txid ∧
      a.previous_output.vout ≤ b.previous_output.vout)

/-- The BIP69 output sort key order: the Rust tuple ordering on
(value, script_pubkey) from line 212. -/
def txoutLE (a b : TxOut) : Prop :=
  a.value < b.value ∨ (a.value = b.value ∧ a.script_pubkey ≤ b.script_pubkey)

instance : DecidableRel txinLE := fun a b => by
  unfold txinLE
  infer_instance

instance : DecidableRel txoutLE := fun a b => by
  unfold txoutLE
  infer_instance

instance : IsTotal TxIn txinLE := by
  constructor
  intro a b
  rcases lt_trichotomy a.previous_output.txid b.previous_output.txid with h | h | h
  · exact Or.inl (Or.inl h)
  · rcases Nat.le_total a.previous_output.vout b.previous_output.vout with hv | hv
    · exact Or.inl (Or.inr ⟨h, hv⟩)
    · exact Or.inr (Or.inr ⟨h.symm, hv⟩)
  · exact Or.inr (Or.inl h)

instance : IsTrans TxIn txinLE := by
  constructor
  intro a b c hab hbc
  rcases hab with h₁ | ⟨h₁, h₁v⟩ <;> rcases hbc with h₂ | ⟨h₂, h₂v⟩
  · exact Or.inl (lt_trans h₁ h₂)
  · exact Or.inl (lt_of_lt_of_le h₁ (le_of_eq h₂))
  · exact Or.inl (lt_of_le_of_lt (le_of_eq h₁) h₂)
  · exact Or.inr ⟨h₁.trans h₂, le_trans h₁v h₂v⟩

instance : IsTotal TxOut txoutLE := by
  constructor
  intro a b
  rcases lt_trichotomy a.value b.value with h | h | h
  · exact Or.inl (Or.inl h)
  · rcases le_total a.script_pubkey b.script_pubkey with hv | hv
    · exact Or.inl (Or.inr ⟨h, hv⟩)
    · exact Or.inr (Or.inr ⟨h.symm, hv⟩)
  · exact Or.inr (Or.inl h)

instance : IsTrans TxOut txoutLE := by
  constructor
  intro a b c hab hbc
  rcases hab with h₁ | ⟨h₁, h₁v⟩ <;> rcases hbc with h₂ | ⟨h₂, h₂v⟩
  · exact Or.inl (lt_trans h₁ h₂)
  · exact Or.inl (lt_of_lt_of_le h₁ (le_of_eq h₂))
  · exact Or.inl (lt_of_le_of_lt (le_of_eq h₁) h₂)
  · exact Or.inr ⟨h₁.trans h₂, le_trans h₁v h₂v⟩

/-- An injected random source: maps the Fisher-Yates loop index to a raw
draw (see the header notes on Shuffle). -/
abbrev RandSource := Nat → Nat

/-- Vec swap of the elements at positions i and j (identity when an index
is out of range; the shuffle loop only ever swaps in range). -/
def listSwap (l : List α) (i j : Nat) : List α :=
  if h : i < l.length ∧ j < l.length then (l.set i l[j]).set j l[i] else l

/-- The Fisher-Yates loop of SliceRandom::shuffle: process indices
n, n-1, ..., 1, swapping index i with a drawn index in [0, i]. -/
def shuffleGo (rng : RandSource) : Nat → List α → List α
  | 0, l => l
  | Nat.succ i, l => shuffleGo rng i (listSwap l (i + 1) (rng (i + 1) % (i + 2)))

/-- SliceRandom::shuffle on a list: run the loop from index len - 1 down
to 1. -/
def shuffleList (rng : RandSource) (l : List α) : List α :=
  shuffleGo rng (l.length - 1) l

/-- TxOrdering::sort_tx (lines 191-216). The source mutates the
transaction in place; the embedding returns the updated transaction. The
random source used by the Shuffle arm is the injected rng parameter. -/
def TxOrdering.sort_tx (o : TxOrdering) (rng : RandSource) (tx : Transaction) : Transaction :=
  match o with
  | TxOrdering.Untouched => tx
  | TxOrdering.Shuffle => { tx with output := shuffleList rng tx.output }
  | TxOrdering.BIP69Lexicographic =>
      { tx with
        input := List.insertionSort txinLE tx.input
        output := List.insertionSort txoutLE tx.output }

/-- Opaque recipient address; carrier irrelevant to the claims. -/
structure Address where
  text : String
  deriving DecidableEq

/-- Opaque fee rate; the f32 payload is never computed with in this core,
so a decidable carrier stands in for it. -/
structure FeeRate where
  rate : Nat
  deriving DecidableEq

/-- Sighash modes of bitcoin::SigHashType; opaque pass-through here. -/
inductive SigHashType where
  | All
  | None
  | Single
  | AllPlusAnyoneCanPay
  | NonePlusAnyoneCanPay
  | SinglePlusAnyoneCanPay
  deriving DecidableEq

/-- Policy path map (BTreeMap from String to Vec of usize), opaque
pass-through; modelled as an association list. -/
abbrev PolicyPath := List (String × List Nat)

/-- TxBuilder (lines 33-49), parameterized by the coin-selection strategy
type Cs. -/
structure TxBuilder (Cs : Type) where
  recipients : List (Address × Nat)
  send_all : Bool
  fee_rate : Option FeeRate
  policy_path : Option PolicyPath
  utxos : Option (List OutPoint)
  unspendable : Option (List OutPoint)
  sighash : Option SigHashType
  ordering : TxOrdering
  locktime : Option Nat
  rbf : Option Nat
  version : Option Version
  change_policy : ChangeSpendPolicy
  force_non_witness_utxo : Bool
  coin_selection : Cs

/-- TxBuilder::enable_rbf_with_sequence (lines 128-131). -/
def TxBuilder.enable_rbf_with_sequence (b : TxBuilder Cs) (nsequence : Nat) : TxBuilder Cs :=
  { b with rbf := some nsequence }

/-- TxBuilder::enable_rbf (lines 124-126): delegates with the fixed
sequence 0xFFFFFFFD. -/
def TxBuilder.enable_rbf (b : TxBuilder Cs) : TxBuilder Cs :=
  b.enable_rbf_with_sequence 0xFFFFFFFD

/-- TxBuilder::coin_selection (lines 158-175), the strategy-swap method;
named set_coin_selection here because the field projection already carries
the source name. Every other field is copied verbatim, as in the source. -/
def TxBuilder.set_coin_selection (b : TxBuilder Cs) (cs : P) : TxBuilder P :=
  { recipients := b.recipients
    send_all := b.send_all
    fee_rate := b.fee_rate
    policy_path := b.policy_path
    utxos := b.utxos
    unspendable := b.unspendable
    sighash := b.sighash
    ordering := b.ordering
    locktime := b.locktime
    rbf := b.rbf
    version := b.version
    change_policy := b.change_policy
    force_non_witness_utxo := b.force_non_witness_utxo
    coin_selection := cs }

/-- Moving the element at position k to the front while writing b into its
slot permutes the same elements as putting b at the front. -/
theorem cons_set_perm (l : List α) (k : Nat) (hk : k < l.length) (b : α) :
    (l[k] :: l.set k b).Perm (b :: l) := by
  induction l generalizing k with
  | nil => exact absurd hk (Nat.not_lt_zero k)
  | cons c s ih =>
    cases k with
    | zero => exact List.Perm.swap b c s
    | succ k =>
      have hk' : k < s.length := Nat.lt_of_succ_lt_succ hk
      show (s[k] :: c :: s.set k b).Perm (b :: c :: s)
      exact ((List.Perm.swap c s[k] (s.set k b)).trans ((ih k hk').cons c)).trans
        (List.Perm.swap b c s)

/-- Writing each of two in-range positions with the other's element is a
permutation. -/
theorem set_set_perm (l : List α) (i j : Nat) (hi : i < l.length) (hj : j < l.length) :
    ((l.set i l[j]).set j l[i]).Perm l := by
  induction l generalizing i j with
  | nil => exact absurd hi (Nat.not_lt_zero i)
  | cons c s ih =>
    cases i with
    | zero =>
      cases j with
      | zero => exact List.Perm.refl (c :: s)
      | succ j =>
        have hj' : j < s.length := Nat.lt_of_succ_lt_succ hj
        show (s[j] :: s.set j c).Perm (c :: s)
        exact cons_set_perm s j hj' c
    | succ i =>
      cases j with
      | zero =>
        have hi' : i < s.length := Nat.lt_of_succ_lt_succ hi
        show (s[i] :: s.set i c).Perm (c :: s)
        exact cons_set_perm s i hi' c
      | succ j =>
        have hi' : i < s.length := Nat.lt_of_succ_lt_succ hi
        have hj' : j < s.length := Nat.lt_of_succ_lt_succ hj
        show (c :: (s.set i s[j]).set j s[i]).Perm (c :: s)
        exact (ih i j hi' hj').cons c

/-- listSwap permutes its list. -/
theorem listSwap_perm (l : List α) (i j : Nat) : (listSwap l i j).Perm l := by
  unfold listSwap
  split
  next h => exact set_set_perm l i j h.1 h.2
  next => exact List.Perm.refl l

/-- Every run of the Fisher-Yates loop permutes its list. -/
theorem shuffleGo_perm (rng : RandSource) :
    ∀ (n : Nat) (l : List α), (shuffleGo rng n l).Perm l
  | 0, l => List.Perm.refl l
  | Nat.succ i, l =>
    (shuffleGo_perm rng i (listSwap l (i + 1) (rng (i + 1) % (i + 2)))).trans
      (listSwap_perm l (i + 1) (rng (i + 1) % (i + 2)))

/-- shuffleList permutes its list. -/
theorem shuffleList_perm (rng : RandSource) (l : List α) : (shuffleList rng l).Perm l :=
  shuffleGo_perm rng (l.length - 1) l

/-- Shuffling a list of length at most one is the identity. -/
theorem shuffleList_short (rng : RandSource) (l : List α) (h : l.length ≤ 1) :
    shuffleList rng l = l := by
  unfold shuffleList
  rw [Nat.sub_eq_zero_of_le h]
  rfl

/-- C1: for every transaction (and any random source, unused by this arm),
BIP69Lexicographic.sort_tx yields inputs sorted ascending by the pair
(previous txid bytes in canonical order, previous vout) and outputs sorted
ascending by the pair (amount, script bytes), with the input multiset and
the output multiset unchanged. -/
theorem claim_C1_bip69_sorted_perm (rng : RandSource) (tx : Transaction) :
    List.Sorted txinLE (TxOrdering.BIP69Lexicographic.sort_tx rng tx).input ∧
    List.Sorted txoutLE (TxOrdering.BIP69Lexicographic.sort_tx rng tx).output ∧
    ((TxOrdering.BIP69Lexicographic.sort_tx rng tx).input).Perm tx.input ∧
    ((TxOrdering.BIP69Lexicographic.sort_tx rng tx).output).Perm tx.output := by
  refine ⟨?_, ?_, ?_, ?_⟩
  · exact List.sorted_insertionSort txinLE tx.input
  · exact List.sorted_insertionSort txoutLE tx.output
  · exact List.perm_insertionSort txinLE tx.input
  · exact List.perm_insertionSort txoutLE tx.output

/-- C2: filter_utxos under ChangeAllowed is the identity on the sequence,
under OnlyChange keeps exactly the internal entries in order, under
ChangeForbidden keeps exactly the non-internal entries in order, and for
every policy the result depends only on the is_internal tag: any rewrite g
of the other fields commutes with the filter. -/
theorem claim_C2_filter_utxos (p : ChangeSpendPolicy) (l : List UTXO) (g : UTXO → UTXO)
    (hg : ∀ u, (g u).is_internal = u.is_internal) :
    ChangeSpendPolicy.ChangeAllowed.filter_utxos l = l ∧
    ChangeSpendPolicy.OnlyChange.filter_utxos l = l.filter (fun u => u.is_internal) ∧
    ChangeSpendPolicy.ChangeForbidden.filter_utxos l = l.filter (fun u => !u.is_internal) ∧
    p.filter_utxos (l.map g) = (p.filter_utxos l).map g := by
  refine ⟨rfl, rfl, rfl, ?_⟩
  cases p with
  | ChangeAllowed => rfl
  | OnlyChange =>
    show (l.map g).filter (fun u => u.is_internal)
        = (l.filter (fun u => u.is_internal)).map g
    rw [List.filter_map]
    congr 1
    apply List.filter_congr
    intro u _
    simp [hg u]
  | ChangeForbidden =>
    show (l.map g).filter (fun u => !u.is_internal)
        = (l.filter (fun u => !u.is_internal)).map g
    rw [List.filter_map]
    congr 1
    apply List.filter_congr
    intro u _
    simp [hg u]

/-- Concrete instantiation of claim C2 at a two-element sequence with the
identity rewrite. -/
def utxoExt : UTXO :=
  { outpoint := { txid := [1, 2], vout := 0 }
    txout := { value := 1000, script_pubkey := [0xAA] }
    is_internal := false }

/-- Internal (change) UTXO used by the claim C2 witness. -/
def utxoInt : UTXO :=
  { outpoint := { txid := [1, 2], vout := 1 }
    txout := { value := 2000, script_pubkey := [0xBB] }
    is_internal := true }

/-- Witness for claim C2: the hypothesis and conclusion hold at a concrete
two-element UTXO sequence with g the identity. -/
theorem claim_C2_filter_utxos_witness :
    (∀ u : UTXO, (id u).is_internal = u.is_internal) ∧
    (ChangeSpendPolicy.ChangeAllowed.filter_utxos [utxoExt, utxoInt] = [utxoExt, utxoInt] ∧
      ChangeSpendPolicy.OnlyChange.filter_utxos [utxoExt, utxoInt]
        = [utxoExt, utxoInt].filter (fun u => u.is_internal) ∧
      ChangeSpendPolicy.ChangeForbidden.filter_utxos [utxoExt, utxoInt]
        = [utxoExt, utxoInt].filter (fun u => !u.is_internal) ∧
      ChangeSpendPolicy.OnlyChange.filter_utxos ([utxoExt, utxoInt].map id)
        = (ChangeSpendPolicy.OnlyChange.filter_utxos [utxoExt, utxoInt]).map id) :=
  ⟨fun _ => rfl,
    claim_C2_filter_utxos ChangeSpendPolicy.OnlyChange [utxoExt, utxoInt] id fun _ => rfl⟩

/-- C3: Untouched.sort_tx returns the transaction unchanged: input list,
output list, version and locktime are all identical. -/
theorem claim_C3_untouched_identity (rng : RandSource) (tx : Transaction) :
    TxOrdering.Untouched.sort_tx rng tx = tx := rfl

/-- C4: for every random source, Shuffle.sort_tx leaves the input list
unchanged and replaces the output list with a permutation of the original
outputs. -/
theorem claim_C4_shuffle_perm (rng : RandSource) (tx : Transaction) :
    (TxOrdering.Shuffle.sort_tx rng tx).input = tx.input ∧
    ((TxOrdering.Shuffle.sort_tx rng tx).output).Perm tx.output :=
  ⟨rfl, shuffleList_perm rng tx.output⟩

/-- C6: BIP69Lexicographic.sort_tx is idempotent: a second application
(under any random sources, unused by this arm) returns exactly the input
and output lists of the first. -/
theorem claim_C6_bip69_idempotent (rng₁ rng₂ : RandSource) (tx : Transaction) :
    (TxOrdering.BIP69Lexicographic.sort_tx rng₂
        (TxOrdering.BIP69Lexicographic.sort_tx rng₁ tx)).input
      = (TxOrdering.BIP69Lexicographic.sort_tx rng₁ tx).input ∧
    (TxOrdering.BIP69Lexicographic.sort_tx rng₂
        (TxOrdering.BIP69Lexicographic.sort_tx rng₁ tx)).output
      = (TxOrdering.BIP69Lexicographic.sort_tx rng₁ tx).output := by
  constructor
  · show List.insertionSort txinLE (List.insertionSort txinLE tx.input)
        = List.insertionSort txinLE tx.input
    exact (List.sorted_insertionSort txinLE tx.input).insertionSort_eq
  · show List.insertionSort txoutLE (List.insertionSort txoutLE tx.output)
        = List.insertionSort txoutLE tx.output
    exact (List.sorted_insertionSort txoutLE tx.output).insertionSort_eq

/-- C7: the default TxOrdering is Shuffle, the default ChangeSpendPolicy is
ChangeAllowed, and the default Version wraps 1. -/
theorem claim_C7_defaults :
    TxOrdering.default = TxOrdering.Shuffle ∧
    ChangeSpendPolicy.default = ChangeSpendPolicy.ChangeAllowed ∧
    Version.default = Version.mk 1 :=
  ⟨rfl, rfl, rfl⟩

/-- C8: enable_rbf sets the rbf field to some 0xFFFFFFFD, and
enable_rbf_with_sequence n sets it to some n, for every u32 value n; both
are total functions. -/
theorem claim_C8_enable_rbf (b : TxBuilder Cs) (n : Nat) (h : n < 2 ^ 32) :
    b.enable_rbf.rbf = some 0xFFFFFFFD ∧ (b.enable_rbf_with_sequence n).rbf = some n :=
  ⟨rfl, rfl⟩

/-- Concrete builder (over the trivial strategy type) used by witnesses. -/
def builderW : TxBuilder Unit :=
  { recipients := []
    send_all := false
    fee_rate := none
    policy_path := none
    utxos := none
    unspendable := none
    sighash := none
    ordering := TxOrdering.default
    locktime := none
    rbf := none
    version := none
    change_policy := ChangeSpendPolicy.default
    force_non_witness_utxo := false
    coin_selection := () }

/-- Witness for claim C8 at the concrete builder and sequence number 7. -/
theorem claim_C8_enable_rbf_witness :
    7 < 2 ^ 32 ∧
      (builderW.enable_rbf.rbf = some 0xFFFFFFFD ∧
        (builderW.enable_rbf_with_sequence 7).rbf = some 7) :=
  ⟨by decide, claim_C8_enable_rbf builderW 7 (by decide)⟩

/-- C9: the strategy-swap method replaces only the coin_selection field;
the thirteen other fields of the new builder equal those of the original. -/
theorem claim_C9_coin_selection_frame (b : TxBuilder Cs) (p : P) :
    (b.set_coin_selection p).recipients = b.recipients ∧
    (b.set_coin_selection p).send_all = b.send_all ∧
    (b.set_coin_selection p).fee_rate = b.fee_rate ∧
    (b.set_coin_selection p).policy_path = b.policy_path ∧
    (b.set_coin_selection p).utxos = b.utxos ∧
    (b.set_coin_selection p).unspendable = b.unspendable ∧
    (b.set_coin_selection p).sighash = b.sighash ∧
    (b.set_coin_selection p).ordering = b.ordering ∧
    (b.set_coin_selection p).locktime = b.locktime ∧
    (b.set_coin_selection p).rbf = b.rbf ∧
    (b.set_coin_selection p).version = b.version ∧
    (b.set_coin_selection p).change_policy = b.change_policy ∧
    (b.set_coin_selection p).force_non_witness_utxo = b.force_non_witness_utxo ∧
    (b.set_coin_selection p).coin_selection = p :=
  ⟨rfl, rfl, rfl, rfl, rfl, rfl, rfl, rfl, rfl, rfl, rfl, rfl, rfl, rfl⟩

/-- C10: shuffling a transaction with at most one output is the identity,
for every random source. -/
theorem claim_C10_shuffle_short_identity (rng : RandSource) (tx : Transaction)
    (h : tx.output.length ≤ 1) :
    TxOrdering.Shuffle.sort_tx rng tx = tx := by
  show { tx with output := shuffleList rng tx.output } = tx
  rw [shuffleList_short rng tx.output h]

/-- Concrete one-output transaction used by the claim C10 witness. -/
def txOneOut : Transaction :=
  { version := 1
    lock_time := 0
    input := []
    output := [{ value := 1000, script_pubkey := [0xAA] }] }

/-- Witness for claim C10 at a concrete one-output transaction. -/
theorem claim_C10_shuffle_short_identity_witness :
    txOneOut.output.length ≤ 1 ∧
      TxOrdering.Shuffle.sort_tx (fun _ => 0) txOneOut = txOneOut :=
  ⟨by decide, claim_C10_shuffle_short_identity (fun _ => 0) txOneOut (by decide)⟩

end TxBuilderSpec
